import Mathlib

/-
Verification of PlaylistPilot (src/app.py) against its natural-language
specification.  The Python module is shallowly embedded: pure string and
list manipulation is translated directly; the filesystem and the external
yt-dlp subprocess are abstracted as explicit oracle parameters (the result
of each subprocess invocation and of each post-attempt directory scan),
so every behaviour of the environment is covered by universal
quantification over the oracles.
-/

set_option autoImplicit false

namespace PlaylistPilot

/-- A track record as built by the metadata fetchers in app.py
(`extract_tracks_from_spotify`, `fetch_youtube_track`, ...).  Optional
string fields use `""` for a missing/falsy value, matching Python
truthiness on strings. -/
structure Track where
  id : String
  name : String
  artists : String
  album : String
  duration_ms : Nat
  youtube_url : String
  cover_url : String
  source : String
deriving DecidableEq, Repr

/-- Characters removed by `clean_filename` (the regex character class
`[<>:"/\|?*]` in app.py). -/
def isInvalidFilenameChar (c : Char) : Bool :=
  c = '<' || c = '>' || c = ':' || c = '"' || c = '/' || c = '\\' || c = '|' || c = '?' || c = '*'

/-- app.py `clean_filename`: remove every invalid filename character.
`re.sub(pattern, repl, text)` with an empty replacement is a filter over
the characters of the string. -/
def clean_filename (text : String) : String :=
  ⟨text.data.filter (fun c => !isInvalidFilenameChar c)⟩

/-- `os.path.join(output_dir, f)` for the simple relative-name case used
in app.py. -/
def joinPath (output_dir f : String) : String :=
  output_dir ++ "/" ++ f

/-- app.py `file_exists_in_dir`: scan the extensions in order and return
the first `base.ext` path present in the working directory.  The working
directory is modelled as the list of paths it contains.  Python returns
the pair `(True, path)` / `(False, None)`; we return `Option String`. -/
def file_exists_in_dir (files : List String) (output_dir base_filename : String) :
    List String → Option String
  | [] => none
  | ext :: rest =>
    let file_path := joinPath output_dir (base_filename ++ "." ++ ext)
    if file_path ∈ files then some file_path
    else file_exists_in_dir files output_dir base_filename rest

/-- One source candidate of `download_track_multisource` (a dict
`{name, url, extra_args}` in app.py, written here without braces). -/
structure SourceCandidate where
  name : String
  url : String
  extra_args : List String
deriving DecidableEq, Repr

/-- The fixed ladder of search-based sources appended in
`download_track_multisource` (the `sources.extend([...])` call). -/
def searchSources (artist_name track_name : String) : List SourceCandidate :=
  [ ⟨"YouTube Music (Official Audio)",
      "ytsearch1:" ++ artist_name ++ " - " ++ track_name ++ " official audio", []⟩,
    ⟨"YouTube (Topic Channel)",
      "ytsearch1:" ++ artist_name ++ " - " ++ track_name ++ " topic", []⟩,
    ⟨"YouTube (Provided to YouTube)",
      "ytsearch1:" ++ artist_name ++ " " ++ track_name ++ " provided to youtube", []⟩,
    ⟨"YouTube (Audio)",
      "ytsearch1:" ++ artist_name ++ " " ++ track_name ++ " audio", []⟩,
    ⟨"Soundcloud",
      "scsearch1:" ++ artist_name ++ " " ++ track_name,
      ["--extractor-args", "soundcloud:client_id="]⟩ ]

/-- The full candidate list built by `download_track_multisource`: the
direct YouTube URL first when the track comes from YouTube and carries a
(truthy) URL, then the search ladder. -/
def buildSources (t : Track) : List SourceCandidate :=
  (if t.source = "youtube" ∧ t.youtube_url ≠ "" then
    [⟨"YouTube (Direct)", t.youtube_url, []⟩]
  else []) ++ searchSources t.artists t.name

/-- Result of one `subprocess.run` invocation of yt-dlp inside the
candidate loop: expiry of the 120 s timeout, any other exception, or a
normal exit with a return code. -/
inductive ProcResult where
  | timeout
  | exn
  | exit (code : Int)
deriving DecidableEq, Repr

/-- The triple returned by `download_track_multisource`
(`success, file_path, source`). -/
structure DownloadOutcome where
  success : Bool
  file_path : Option String
  source_used : String
deriving DecidableEq, Repr

/-- Post-attempt directory scan oracle: after the i-th subprocess
invocation, `scan i` is the file (path and byte size) that
`file_exists_in_dir` finds for the expected base filename, if any. -/
def ScanOracle : Type := Nat → Option (String × Nat)

/-- Whether the i-th candidate attempt is accepted by the loop in
`download_track_multisource`: the subprocess exited 0, the expected file
exists, and its size exceeds the 50000-byte floor. -/
def acceptedAttempt (proc : Nat → ProcResult) (scan : ScanOracle) (i : Nat) : Bool :=
  match proc i, scan i with
  | ProcResult.exit c, some (_, sz) => (c == 0) && decide (50000 < sz)
  | _, _ => false

/-- The candidate loop of `download_track_multisource`, indexed by the
absolute attempt number `i`.  Returns the outcome triple, the number of
subprocess invocations made, and the list of undersized files deleted by
`os.remove`.  A timeout (`subprocess.TimeoutExpired`) or any other
exception continues with the next candidate, as do a non-zero exit, a
missing expected file, and an undersized file (which is deleted first). -/
def runCandidates (proc : Nat → ProcResult) (scan : ScanOracle) :
    List SourceCandidate → Nat → DownloadOutcome × Nat × List String
  | [], _ => (⟨false, none, "All sources failed"⟩, 0, [])
  | s :: rest, i =>
    match proc i with
    | ProcResult.timeout =>
      let r := runCandidates proc scan rest (i + 1)
      (r.1, r.2.1 + 1, r.2.2)
    | ProcResult.exn =>
      let r := runCandidates proc scan rest (i + 1)
      (r.1, r.2.1 + 1, r.2.2)
    | ProcResult.exit c =>
      if c = 0 then
        match scan i with
        | some (downloaded_file, sz) =>
          if 50000 < sz then (⟨true, some downloaded_file, s.name⟩, 1, [])
          else
            let r := runCandidates proc scan rest (i + 1)
            (r.1, r.2.1 + 1, downloaded_file :: r.2.2)
        | none =>
          let r := runCandidates proc scan rest (i + 1)
          (r.1, r.2.1 + 1, r.2.2)
      else
        let r := runCandidates proc scan rest (i + 1)
        (r.1, r.2.1 + 1, r.2.2)

/-- app.py `download_track_multisource`.  The `audio_format` and
`quality` parameters only shape the external command line, never the
control flow, so they are carried but unused.  Oracles abstract the
subprocess and the post-attempt filesystem scans. -/
def download_track_multisource (track_info : Track) (files : List String)
    (output_dir : String) (audio_format quality : String)
    (proc : Nat → ProcResult) (scan : ScanOracle) :
    DownloadOutcome × Nat × List String :=
  let safe_filename := clean_filename (track_info.artists ++ " - " ++ track_info.name)
  let possible_extensions := ["m4a", "mp3", "webm", "opus"]
  match file_exists_in_dir files output_dir safe_filename possible_extensions with
  | some existing_file => (⟨true, some existing_file, "Already downloaded"⟩, 0, [])
  | none => runCandidates proc scan (buildSources track_info) 0

/-- Python truthiness of the `file_path` component (`None` and `""` are
falsy). -/
def pathTruthy : Option String → Bool
  | none => false
  | some s => !s.isEmpty

/-- The three counters accumulated by `download_playlist_multisource`
(`downloaded`, `skipped`, and the `failed` list of track labels). -/
structure BatchState where
  downloaded : Nat
  skipped : Nat
  failed : List String
deriving DecidableEq, Repr

/-- One iteration of the loop in `download_playlist_multisource` for a
track `t` whose single-track download returned outcome `o`.
`tagResult t p` is the boolean returned by `add_metadata_to_file` for
track `t` at path `p`; it influences only the progress messages, never
the counters.  Progress strings are abbreviated (no index prefix or
emoji), which no claim depends on. -/
def stepTrack (tagResult : Track → String → Bool) (add_metadata : Bool)
    (acc : BatchState × List String) (t : Track) (o : DownloadOutcome) :
    BatchState × List String :=
  let st := acc.1
  let evs := acc.2
  if o.success && pathTruthy o.file_path then
    if o.source_used = "Already downloaded" then
      ({ st with skipped := st.skipped + 1 },
        evs ++ ["Skipped (already exists): " ++ t.name])
    else
      let evs1 := evs ++ ["Downloaded from " ++ o.source_used ++ ": " ++ t.name]
      let evs2 :=
        if add_metadata then
          if tagResult t (o.file_path.getD "") then evs1 ++ ["Metadata added"]
          else evs1 ++ ["Metadata failed (file still usable)"]
        else evs1
      ({ st with downloaded := st.downloaded + 1 }, evs2)
  else
    ({ st with failed := st.failed ++ [t.artists ++ " - " ++ t.name] },
      evs ++ ["Failed: " ++ t.name])

/-- app.py `download_playlist_multisource`: fold the per-track step over
the track list, starting from zero counters.  `dl` gives each track's
single-track outcome (the call to `download_track_multisource`). -/
def download_playlist_multisource (dl : Track → DownloadOutcome)
    (tagResult : Track → String → Bool) (add_metadata : Bool)
    (tracks : List Track) : BatchState × List String :=
  tracks.foldl (fun acc t => stepTrack tagResult add_metadata acc t (dl t)) (⟨0, 0, []⟩, [])

/-- Python `str.endswith`, character-wise. -/
def strEndsWith (s post : String) : Bool :=
  post.data.isSuffixOf s.data

/-- app.py `add_metadata_to_file`: tag an `.m4a` file via MP4 or an
`.mp3` file via ID3; every exception inside the handler yields `False`,
a clean pass yields `True`, and any other extension falls through both
branches and returns `True`.  `mutagen_ok` abstracts whether the tagging
library operations succeed. -/
def add_metadata_to_file (file_path : String) (mutagen_ok : Bool) : Bool :=
  if strEndsWith file_path ".m4a" then mutagen_ok
  else if strEndsWith file_path ".mp3" then mutagen_ok
  else true

/-- The state (counter) component of `stepTrack`; the progress strings
and the tagging result never feed back into it. -/
def batchStateStep (st : BatchState) (t : Track) (o : DownloadOutcome) : BatchState :=
  if o.success && pathTruthy o.file_path then
    if o.source_used = "Already downloaded" then { st with skipped := st.skipped + 1 }
    else { st with downloaded := st.downloaded + 1 }
  else { st with failed := st.failed ++ [t.artists ++ " - " ++ t.name] }

/-- A physical file produced in the temp directory, split as
`pathlib.Path` does into `stem` (base filename) and suffix-less `ext`. -/
structure DlFile where
  stem : String
  ext : String
deriving DecidableEq, Repr

/-- `Path.name` of a downloaded file. -/
def dlName (f : DlFile) : String := f.stem ++ "." ++ f.ext

/-- The dedup loop of the download handler: `seen` is the set of stems
already kept; the first file with each stem is kept, later ones are
dropped. -/
def dedupeByStem : List DlFile → List String → List DlFile
  | [], _ => []
  | f :: rest, seen =>
    if f.stem ∈ seen then dedupeByStem rest seen
    else f :: dedupeByStem rest (f.stem :: seen)

/-- app.py download handler: the `unique_files` list built from the
globbed files with an initially empty `seen` set. -/
def unique_files (files : List DlFile) : List DlFile :=
  dedupeByStem files []

/-- The archive entry names written by the `zipfile.ZipFile` loop:
`file_path.name` for each deduplicated file. -/
def zipEntryNames (files : List DlFile) : List String :=
  (unique_files files).map dlName

/-- The fields of one yt-dlp `--dump-json` record that
`fetch_youtube_track` reads, with the Python `.get` defaults already
applied (`title` defaults to "Unknown", `uploader` to "Unknown Artist",
`duration` to 0, the rest to ""). -/
structure VideoInfo where
  id : String
  title : String
  uploader : String
  album : String
  duration : Nat
  thumbnail : String
deriving DecidableEq, Repr

/-- Result of one metadata method attempt in `fetch_youtube_track`:
timeout, other exception, or a normal exit carrying the return code,
whether stdout stripped non-empty, and the JSON parse result (`none`
models `json.JSONDecodeError`). -/
inductive MetaAttempt where
  | timeout
  | exn
  | exit (code : Int) (stdout_nonempty : Bool) (parsed : Option VideoInfo)
deriving DecidableEq, Repr

/-- Whether a metadata method attempt produces a track (exit 0, stdout
non-empty, JSON parsed). -/
def metaAttemptSucceeds : MetaAttempt → Bool
  | MetaAttempt.exit c stdout_nonempty parsed => (c == 0) && stdout_nonempty && parsed.isSome
  | _ => false

/-- The track dict `fetch_youtube_track` builds from a parsed video
info record: `duration_ms` is `duration * 1000` when `duration` is
truthy, else 0 (which `duration * 1000` also gives at 0). -/
def trackFromInfo (url : String) (v : VideoInfo) : Track :=
  ⟨v.id, v.title, v.uploader, v.album, v.duration * 1000, url, v.thumbnail, "youtube"⟩

/-- The method loop of `fetch_youtube_track` over the method indices:
first successful attempt returns its track; every failure mode
continues with the next method. -/
def tryTrackMethods (url : String) (att : Nat → MetaAttempt) : List Nat → Option Track
  | [] => none
  | i :: rest =>
    match att i with
    | MetaAttempt.exit c stdout_nonempty parsed =>
      if (c == 0) && stdout_nonempty then
        match parsed with
        | some v => some (trackFromInfo url v)
        | none => tryTrackMethods url att rest
      else tryTrackMethods url att rest
    | MetaAttempt.timeout => tryTrackMethods url att rest
    | MetaAttempt.exn => tryTrackMethods url att rest

/-- Video-id extraction in the fallback path of `fetch_youtube_track`:
`url.split('watch?v=')[1].split('&')[0]` when `'watch?v='` occurs in
the URL, else the analogous `youtu.be/` split, else `None`. -/
def extract_video_id (url : String) : Option String :=
  if (url.splitOn "watch?v=").length > 1 then
    some ((((url.splitOn "watch?v=").getD 1 "").splitOn "&").headD "")
  else if (url.splitOn "youtu.be/").length > 1 then
    some ((((url.splitOn "youtu.be/").getD 1 "").splitOn "?").headD "")
  else none

/-- The synthesized basic track info returned when every metadata
method fails, following Python truthiness of `video_id` (both `None`
and `""` take the placeholder branch). -/
def fallbackTrack (url : String) : Track :=
  let v := extract_video_id url
  match v with
  | some vid =>
    if vid.isEmpty then ⟨"unknown", "YouTube Video", "YouTube", "", 0, url, "", "youtube"⟩
    else
      ⟨vid, "YouTube Video " ++ vid, "YouTube", "", 0, url,
        "https://img.youtube.com/vi/" ++ vid ++ "/maxresdefault.jpg", "youtube"⟩
  | none => ⟨"unknown", "YouTube Video", "YouTube", "", 0, url, "", "youtube"⟩

/-- app.py `fetch_youtube_track`: try the three metadata methods, and
when all fail return the synthesized fallback record instead of `None`. -/
def fetch_youtube_track (url : String) (att : Nat → MetaAttempt) : Option Track :=
  match tryTrackMethods url att [0, 1, 2] with
  | some t => some t
  | none => some (fallbackTrack url)

/-- Result of one playlist method attempt in `fetch_youtube_playlist`:
timeout, other exception, or a normal exit carrying the return code and
the tracks parsed from the stdout lines (undecodable lines are already
skipped by the parse loop). -/
inductive PlaylistAttempt where
  | timeout
  | exn
  | exit (code : Int) (parsed_tracks : List Track)
deriving DecidableEq, Repr

/-- Whether a playlist method attempt succeeds: exit 0 and a non-empty
parsed track list (`if tracks: return tracks`). -/
def playlistAttemptSucceeds : PlaylistAttempt → Bool
  | PlaylistAttempt.exit c parsed_tracks => (c == 0) && !parsed_tracks.isEmpty
  | _ => false

/-- The method loop of `fetch_youtube_playlist`. -/
def tryPlaylistMethods (att : Nat → PlaylistAttempt) : List Nat → Option (List Track)
  | [] => none
  | i :: rest =>
    match att i with
    | PlaylistAttempt.exit c parsed_tracks =>
      if (c == 0) && !parsed_tracks.isEmpty then some parsed_tracks
      else tryPlaylistMethods att rest
    | PlaylistAttempt.timeout => tryPlaylistMethods att rest
    | PlaylistAttempt.exn => tryPlaylistMethods att rest

/-- app.py `fetch_youtube_playlist`: try the two methods and return
`None` when both fail. -/
def fetch_youtube_playlist (url : String) (att : Nat → PlaylistAttempt) :
    Option (List Track) :=
  tryPlaylistMethods att [0, 1]

/- ---------------- Helper lemmas ---------------- -/

lemma runCandidates_cons_of_not_accepted (proc : Nat → ProcResult) (scan : ScanOracle)
    (s : SourceCandidate) (rest : List SourceCandidate) (b : Nat)
    (h : acceptedAttempt proc scan b = false) :
    (runCandidates proc scan (s :: rest) b).1 = (runCandidates proc scan rest (b + 1)).1 ∧
    (runCandidates proc scan (s :: rest) b).2.1 = (runCandidates proc scan rest (b + 1)).2.1 + 1 := by
  unfold acceptedAttempt at h
  cases hp : proc b with
  | timeout => simp [runCandidates, hp]
  | exn => simp [runCandidates, hp]
  | exit c =>
    rw [hp] at h
    by_cases hc : c = 0
    · subst hc
      cases hs : scan b with
      | none => simp [runCandidates, hp, hs]
      | some pr =>
        obtain ⟨fp, sz⟩ := pr
        rw [hs] at h
        simp only [beq_self_eq_true, Bool.true_and, decide_eq_false_iff_not] at h
        simp [runCandidates, hp, hs, h]
    · simp [runCandidates, hp, hc]

lemma runCandidates_cons_of_accepted (proc : Nat → ProcResult) (scan : ScanOracle)
    (s : SourceCandidate) (rest : List SourceCandidate) (b : Nat)
    (h : acceptedAttempt proc scan b = true) :
    ∃ fp sz, scan b = some (fp, sz) ∧ 50000 < sz ∧
      runCandidates proc scan (s :: rest) b = (⟨true, some fp, s.name⟩, 1, []) := by
  unfold acceptedAttempt at h
  cases hp : proc b with
  | timeout => rw [hp] at h; cases h
  | exn => rw [hp] at h; cases h
  | exit c =>
    rw [hp] at h
    cases hs : scan b with
    | none => rw [hs] at h; cases h
    | some pr =>
      obtain ⟨fp, sz⟩ := pr
      rw [hs] at h
      simp only [Bool.and_eq_true, beq_iff_eq, decide_eq_true_eq] at h
      obtain ⟨hc, hsz⟩ := h
      subst hc
      exact ⟨fp, sz, rfl, hsz, by simp [runCandidates, hp, hs, hsz]⟩

lemma runCandidates_first_accepted (proc : Nat → ProcResult) (scan : ScanOracle) :
    ∀ (l : List SourceCandidate) (b j : Nat) (hj : j < l.length),
      acceptedAttempt proc scan (b + j) = true →
      (∀ i, i < j → acceptedAttempt proc scan (b + i) = false) →
      (runCandidates proc scan l b).1.success = true ∧
      (runCandidates proc scan l b).1.source_used = (l.get ⟨j, hj⟩).name ∧
      (runCandidates proc scan l b).2.1 = j + 1 := by
  intro l
  induction l with
  | nil => intro b j hj; exact absurd hj (Nat.not_lt_zero j)
  | cons s rest ih =>
    intro b j hj hacc hmin
    cases j with
    | zero =>
      rw [Nat.add_zero] at hacc
      obtain ⟨fp, sz, _, _, heq⟩ := runCandidates_cons_of_accepted proc scan s rest b hacc
      rw [heq]
      exact ⟨rfl, rfl, rfl⟩
    | succ k =>
      have h0 : acceptedAttempt proc scan b = false := by
        have := hmin 0 (Nat.succ_pos k)
        rwa [Nat.add_zero] at this
      obtain ⟨h1, h2⟩ := runCandidates_cons_of_not_accepted proc scan s rest b h0
      have hj' : k < rest.length := Nat.lt_of_succ_lt_succ hj
      have hacc' : acceptedAttempt proc scan (b + 1 + k) = true := by
        rw [show b + 1 + k = b + (k + 1) by omega]
        exact hacc
      have hmin' : ∀ i, i < k → acceptedAttempt proc scan (b + 1 + i) = false := by
        intro i hi
        rw [show b + 1 + i = b + (i + 1) by omega]
        exact hmin (i + 1) (Nat.succ_lt_succ hi)
      obtain ⟨ha, hb', hc⟩ := ih (b + 1) k hj' hacc' hmin'
      exact ⟨by rw [h1]; exact ha, by rw [h1]; exact hb', by rw [h2, hc]⟩

lemma runCandidates_exhausted (proc : Nat → ProcResult) (scan : ScanOracle) :
    ∀ (l : List SourceCandidate) (b : Nat),
      (∀ i, i < l.length → acceptedAttempt proc scan (b + i) = false) →
      (runCandidates proc scan l b).1 = ⟨false, none, "All sources failed"⟩ ∧
      (runCandidates proc scan l b).2.1 = l.length := by
  intro l
  induction l with
  | nil => intro b _; exact ⟨rfl, rfl⟩
  | cons s rest ih =>
    intro b h
    have h0 : acceptedAttempt proc scan b = false := by
      have := h 0 (Nat.succ_pos rest.length)
      rwa [Nat.add_zero] at this
    obtain ⟨h1, h2⟩ := runCandidates_cons_of_not_accepted proc scan s rest b h0
    have hrest := ih (b + 1) (fun i hi => by
      rw [show b + 1 + i = b + (i + 1) by omega]
      exact h (i + 1) (Nat.succ_lt_succ hi))
    refine ⟨by rw [h1]; exact hrest.1, ?_⟩
    rw [h2, hrest.2, List.length_cons]

lemma runCandidates_success_accepted (proc : Nat → ProcResult) (scan : ScanOracle) :
    ∀ (l : List SourceCandidate) (b : Nat),
      (runCandidates proc scan l b).1.success = true →
      ∃ j, j < l.length ∧ acceptedAttempt proc scan (b + j) = true := by
  intro l
  induction l with
  | nil => intro b h; simp [runCandidates] at h
  | cons s rest ih =>
    intro b h
    cases hA : acceptedAttempt proc scan b with
    | true => exact ⟨0, Nat.succ_pos rest.length, by rwa [Nat.add_zero]⟩
    | false =>
      obtain ⟨h1, _⟩ := runCandidates_cons_of_not_accepted proc scan s rest b hA
      rw [h1] at h
      obtain ⟨j, hj, hacc⟩ := ih (b + 1) h
      refine ⟨j + 1, Nat.succ_lt_succ hj, ?_⟩
      rw [show b + (j + 1) = b + 1 + j by omega]
      exact hacc

lemma runCandidates_failure_label (proc : Nat → ProcResult) (scan : ScanOracle) :
    ∀ (l : List SourceCandidate) (b : Nat),
      (runCandidates proc scan l b).1.success = false →
      (runCandidates proc scan l b).1 = ⟨false, none, "All sources failed"⟩ := by
  intro l
  induction l with
  | nil => intro b _; rfl
  | cons s rest ih =>
    intro b h
    cases hA : acceptedAttempt proc scan b with
    | true =>
      obtain ⟨fp, sz, _, _, heq⟩ := runCandidates_cons_of_accepted proc scan s rest b hA
      rw [heq] at h
      cases h
    | false =>
      obtain ⟨h1, _⟩ := runCandidates_cons_of_not_accepted proc scan s rest b hA
      rw [h1] at h ⊢
      exact ih (b + 1) h

lemma runCandidates_cons_timeout (proc : Nat → ProcResult) (scan : ScanOracle)
    (s : SourceCandidate) (rest : List SourceCandidate) (b : Nat)
    (h : proc b = ProcResult.timeout) :
    runCandidates proc scan (s :: rest) b =
      ((runCandidates proc scan rest (b + 1)).1,
       (runCandidates proc scan rest (b + 1)).2.1 + 1,
       (runCandidates proc scan rest (b + 1)).2.2) := by
  simp [runCandidates, h]

lemma file_exists_in_dir_ne_empty (files : List String) (output_dir base : String) :
    ∀ (exts : List String) (p : String),
      file_exists_in_dir files output_dir base exts = some p → p ≠ "" := by
  intro exts
  induction exts with
  | nil => intro p h; cases h
  | cons e rest ih =>
    intro p h
    unfold file_exists_in_dir at h
    by_cases hm : joinPath output_dir (base ++ "." ++ e) ∈ files
    · rw [if_pos hm] at h
      injection h with h'
      subst h'
      intro hemp
      have hd := congrArg String.data hemp
      simp only [joinPath, String.data_append] at hd
      simp at hd
    · rw [if_neg hm] at h
      exact ih p h

/- ---------------- Claim theorems ---------------- -/

/-- C1: if the sanitized base filename already exists in the working
directory with one of the accepted extensions (m4a, mp3, webm, opus),
`download_track_multisource` returns success immediately with the
cache-hit outcome — realized in the code as the sentinel source string
"Already downloaded" — and invokes zero external fetch processes; the
batch loop classifies exactly this sentinel as a skip (cache hit). -/
theorem c1_cache_hit_immediate_success (t : Track) (files : List String)
    (output_dir audio_format quality : String)
    (proc : Nat → ProcResult) (scan : ScanOracle) (p : String)
    (h : file_exists_in_dir files output_dir
        (clean_filename (t.artists ++ " - " ++ t.name)) ["m4a", "mp3", "webm", "opus"] = some p) :
    download_track_multisource t files output_dir audio_format quality proc scan =
      (⟨true, some p, "Already downloaded"⟩, 0, [])
    ∧ (∀ tagResult add_metadata st evs,
        (stepTrack tagResult add_metadata (st, evs) t ⟨true, some p, "Already downloaded"⟩).1
          = { st with skipped := st.skipped + 1 }) := by
  constructor
  · simp [download_track_multisource, h]
  · intro tagResult add_metadata st evs
    have hp : p ≠ "" := file_exists_in_dir_ne_empty files output_dir _ _ p h
    have hpe : p.isEmpty = false := by
      cases hie : p.isEmpty
      · rfl
      · exact absurd ((String.isEmpty_iff p).mp hie) hp
    simp [stepTrack, pathTruthy, hpe]

/-- C1 witness: a concrete track whose sanitized file is already in the
working directory. -/
theorem c1_cache_hit_immediate_success_witness :
    download_track_multisource
        ⟨"1", "Song", "Artist", "", 0, "", "", "spotify"⟩
        ["dl/Artist - Song.m4a"] "dl" "m4a" "best"
        (fun _ => ProcResult.timeout) (fun _ => none) =
      (⟨true, some "dl/Artist - Song.m4a", "Already downloaded"⟩, 0, []) := by
  have h : file_exists_in_dir ["dl/Artist - Song.m4a"] "dl"
      (clean_filename ("Artist" ++ " - " ++ "Song")) ["m4a", "mp3", "webm", "opus"]
      = some "dl/Artist - Song.m4a" := by decide
  exact (c1_cache_hit_immediate_success _ _ _ _ _ _ _ _ h).1

/-- C5 counterexample: sanitization can return the empty string (there
is no placeholder fallback in `clean_filename`), refuting the claim
that it never produces an empty result. -/
theorem c5_counterexample_empty_output : ¬ (∀ s : String, clean_filename s ≠ "") := by
  intro h
  exact h "?" (by decide)

/-- C5 (amended): filename sanitization is idempotent
(clean(clean(s)) = clean(s) for every string), but it does not fall
back to a non-empty placeholder: an input consisting only of removed
characters, such as "?", sanitizes to the empty string. -/
theorem c5_idempotent_no_placeholder :
    (∀ s : String, clean_filename (clean_filename s) = clean_filename s)
    ∧ clean_filename "?" = "" := by
  constructor
  · intro s
    unfold clean_filename
    congr 1
    simp [List.filter_filter]
  · decide

/-- C2: on a cache miss the single-track fetch iterates the candidate
list in order and stops at the first accepted candidate (exactly j+1
subprocess invocations when candidate j is the first accepted one); if
no candidate in the bounded list is accepted it returns failure with
the exhaustion reason — realized in the code as the string
"All sources failed" — after exactly one invocation per candidate. -/
theorem c2_first_accepted_wins_or_exhaustion (t : Track) (files : List String)
    (output_dir audio_format quality : String)
    (proc : Nat → ProcResult) (scan : ScanOracle)
    (hmiss : file_exists_in_dir files output_dir
        (clean_filename (t.artists ++ " - " ++ t.name)) ["m4a", "mp3", "webm", "opus"] = none) :
    (∀ (j : Nat) (hj : j < (buildSources t).length),
        acceptedAttempt proc scan j = true →
        (∀ i, i < j → acceptedAttempt proc scan i = false) →
        (download_track_multisource t files output_dir audio_format quality proc scan).1.success = true
        ∧ (download_track_multisource t files output_dir audio_format quality proc scan).1.source_used
            = ((buildSources t).get ⟨j, hj⟩).name
        ∧ (download_track_multisource t files output_dir audio_format quality proc scan).2.1 = j + 1)
    ∧ ((∀ i, i < (buildSources t).length → acceptedAttempt proc scan i = false) →
        (download_track_multisource t files output_dir audio_format quality proc scan).1
          = ⟨false, none, "All sources failed"⟩
        ∧ (download_track_multisource t files output_dir audio_format quality proc scan).2.1
          = (buildSources t).length) := by
  have hdl : download_track_multisource t files output_dir audio_format quality proc scan
      = runCandidates proc scan (buildSources t) 0 := by
    simp [download_track_multisource, hmiss]
  constructor
  · intro j hj hacc hmin
    rw [hdl]
    exact runCandidates_first_accepted proc scan (buildSources t) 0 j hj
      (by rw [Nat.zero_add]; exact hacc)
      (fun i hi => by rw [Nat.zero_add]; exact hmin i hi)
  · intro hall
    rw [hdl]
    exact runCandidates_exhausted proc scan (buildSources t) 0
      (fun i hi => by rw [Nat.zero_add]; exact hall i hi)

/-- C2 witness: with the second candidate the first accepted one the
fetch stops after two invocations; with no candidate ever accepted it
fails with the exhaustion reason after all five invocations. -/
theorem c2_first_accepted_wins_or_exhaustion_witness :
    ((download_track_multisource ⟨"1", "Song", "Artist", "", 0, "", "", "spotify"⟩ [] "dl" "m4a" "best"
        (fun k => if k = 0 then ProcResult.exit 1 else ProcResult.exit 0)
        (fun k => if k = 0 then none else some ("dl/Artist - Song.m4a", 60000))).1.source_used
      = "YouTube (Topic Channel)"
    ∧ (download_track_multisource ⟨"1", "Song", "Artist", "", 0, "", "", "spotify"⟩ [] "dl" "m4a" "best"
        (fun k => if k = 0 then ProcResult.exit 1 else ProcResult.exit 0)
        (fun k => if k = 0 then none else some ("dl/Artist - Song.m4a", 60000))).2.1 = 2)
    ∧ ((download_track_multisource ⟨"1", "Song", "Artist", "", 0, "", "", "spotify"⟩ [] "dl" "m4a" "best"
        (fun _ => ProcResult.exit 1) (fun _ => none)).1
      = ⟨false, none, "All sources failed"⟩
    ∧ (download_track_multisource ⟨"1", "Song", "Artist", "", 0, "", "", "spotify"⟩ [] "dl" "m4a" "best"
        (fun _ => ProcResult.exit 1) (fun _ => none)).2.1 = 5) := by
  have hmiss : file_exists_in_dir [] "dl"
      (clean_filename ("Artist" ++ " - " ++ "Song")) ["m4a", "mp3", "webm", "opus"] = none := by
    decide
  have hA := (c2_first_accepted_wins_or_exhaustion
      ⟨"1", "Song", "Artist", "", 0, "", "", "spotify"⟩ [] "dl" "m4a" "best"
      (fun k => if k = 0 then ProcResult.exit 1 else ProcResult.exit 0)
      (fun k => if k = 0 then none else some ("dl/Artist - Song.m4a", 60000)) hmiss).1
      1 (by decide) (by decide) (by decide)
  have hB := (c2_first_accepted_wins_or_exhaustion
      ⟨"1", "Song", "Artist", "", 0, "", "", "spotify"⟩ [] "dl" "m4a" "best"
      (fun _ => ProcResult.exit 1) (fun _ => none) hmiss).2 (by decide)
  refine ⟨⟨?_, hA.2.2⟩, hB.1, ?_⟩
  · rw [hA.2.1]; decide
  · rw [hB.2]; decide

/-- C3: when an attempt exits 0 but the expected file's size does not
exceed the 50000-byte floor, that file is deleted (it is recorded in
the deletion log and the loop result is exactly the result over the
remaining candidates); and a successful outcome only ever arises from
an attempt whose file exists and exceeds the floor. -/
theorem c3_size_floor_rejection (proc : Nat → ProcResult) (scan : ScanOracle)
    (s : SourceCandidate) (rest : List SourceCandidate) (b : Nat) (fp : String) (sz : Nat)
    (h1 : proc b = ProcResult.exit 0) (h2 : scan b = some (fp, sz)) (h3 : sz ≤ 50000) :
    runCandidates proc scan (s :: rest) b =
      ((runCandidates proc scan rest (b + 1)).1,
       (runCandidates proc scan rest (b + 1)).2.1 + 1,
       fp :: (runCandidates proc scan rest (b + 1)).2.2)
    ∧ (∀ (l : List SourceCandidate) (b' : Nat),
        (runCandidates proc scan l b').1.success = true →
        ∃ j, j < l.length ∧ acceptedAttempt proc scan (b' + j) = true) := by
  constructor
  · have hlt : ¬ 50000 < sz := Nat.not_lt.mpr h3
    simp [runCandidates, h1, h2, hlt]
  · exact runCandidates_success_accepted proc scan

/-- C3 witness: an attempt that exits 0 with a 10000-byte file has the
file deleted and the loop moves on (here exhausting the list). -/
theorem c3_size_floor_rejection_witness :
    runCandidates (fun _ => ProcResult.exit 0) (fun _ => some ("dl/f.m4a", 10000))
        [⟨"YouTube (Direct)", "u", []⟩] 0
      = (⟨false, none, "All sources failed"⟩, 1, ["dl/f.m4a"]) := by
  have h := (c3_size_floor_rejection (fun _ => ProcResult.exit 0)
      (fun _ => some ("dl/f.m4a", 10000)) ⟨"YouTube (Direct)", "u", []⟩ [] 0 "dl/f.m4a" 10000
      rfl rfl (by decide)).1
  exact h

/-- C7: a per-attempt timeout is recoverable: a timed-out candidate
just passes control to the next candidate (counting its invocation);
replacing the timed-out attempt by a plain failed (exit 1) attempt
changes nothing observable; and the loop never propagates a timeout as
its own failure — the only failure outcome it can return is the
exhaustion outcome. -/
theorem c7_timeout_recoverable (proc : Nat → ProcResult) (scan : ScanOracle) (i : Nat)
    (h : proc i = ProcResult.timeout) :
    (∀ (s : SourceCandidate) (rest : List SourceCandidate),
        runCandidates proc scan (s :: rest) i =
          ((runCandidates proc scan rest (i + 1)).1,
           (runCandidates proc scan rest (i + 1)).2.1 + 1,
           (runCandidates proc scan rest (i + 1)).2.2))
    ∧ (∀ (l : List SourceCandidate) (b : Nat),
        runCandidates (fun k => if k = i then ProcResult.exit 1 else proc k) scan l b =
          runCandidates proc scan l b)
    ∧ (∀ (l : List SourceCandidate) (b : Nat),
        (runCandidates proc scan l b).1.success = false →
        (runCandidates proc scan l b).1 = ⟨false, none, "All sources failed"⟩) := by
  refine ⟨fun s rest => runCandidates_cons_timeout proc scan s rest i h, ?_,
    runCandidates_failure_label proc scan⟩
  intro l
  induction l with
  | nil => intro b; rfl
  | cons s rest ih =>
    intro b
    by_cases hb : b = i
    · subst hb
      rw [runCandidates_cons_timeout proc scan s rest b h]
      simp [runCandidates, ih]
    · cases hp : proc b with
      | timeout => simp [runCandidates, hp, hb, ih]
      | exn => simp [runCandidates, hp, hb, ih]
      | exit c =>
        by_cases hc : c = 0
        · subst hc
          cases hs : scan b with
          | none => simp [runCandidates, hp, hs, hb, ih]
          | some pr =>
            obtain ⟨fp, sz⟩ := pr
            by_cases hsz : 50000 < sz
            · simp [runCandidates, hp, hs, hb, hsz]
            · simp [runCandidates, hp, hs, hb, hsz, ih]
        · simp [runCandidates, hp, hb, hc, ih]

/-- C7 witness: a single always-timing-out candidate yields the normal
exhaustion outcome after its one invocation, not a fatal error. -/
theorem c7_timeout_recoverable_witness :
    runCandidates (fun _ => ProcResult.timeout) (fun _ => none) [⟨"YouTube (Direct)", "u", []⟩] 0
      = (⟨false, none, "All sources failed"⟩, 1, []) := by
  have h := (c7_timeout_recoverable (fun _ => ProcResult.timeout) (fun _ => none) 0 rfl).1
      ⟨"YouTube (Direct)", "u", []⟩ []
  exact h

lemma stepTrack_fst (tagResult : Track → String → Bool) (add_metadata : Bool)
    (acc : BatchState × List String) (t : Track) (o : DownloadOutcome) :
    (stepTrack tagResult add_metadata acc t o).1 = batchStateStep acc.1 t o := by
  simp only [stepTrack, batchStateStep]
  split_ifs <;> rfl

lemma batchStateStep_counts (st : BatchState) (t : Track) (o : DownloadOutcome) :
    (batchStateStep st t o).downloaded + (batchStateStep st t o).skipped
      + (batchStateStep st t o).failed.length
    = st.downloaded + st.skipped + st.failed.length + 1 := by
  simp only [batchStateStep]
  split_ifs <;> simp [List.length_append] <;> omega

lemma foldl_stepTrack_fst (dl : Track → DownloadOutcome) (tagResult : Track → String → Bool)
    (add_metadata : Bool) :
    ∀ (tracks : List Track) (acc : BatchState × List String),
      (tracks.foldl (fun a t => stepTrack tagResult add_metadata a t (dl t)) acc).1
      = tracks.foldl (fun st t => batchStateStep st t (dl t)) acc.1 := by
  intro tracks
  induction tracks with
  | nil => intro acc; rfl
  | cons t rest ih =>
    intro acc
    rw [List.foldl_cons, List.foldl_cons, ih, stepTrack_fst]

lemma foldl_batchStateStep_counts (dl : Track → DownloadOutcome) :
    ∀ (tracks : List Track) (st : BatchState),
      (tracks.foldl (fun a t => batchStateStep a t (dl t)) st).downloaded
      + (tracks.foldl (fun a t => batchStateStep a t (dl t)) st).skipped
      + (tracks.foldl (fun a t => batchStateStep a t (dl t)) st).failed.length
      = st.downloaded + st.skipped + st.failed.length + tracks.length := by
  intro tracks
  induction tracks with
  | nil => intro st; simp
  | cons t rest ih =>
    intro st
    rw [List.foldl_cons]
    rw [ih (batchStateStep st t (dl t))]
    rw [batchStateStep_counts st t (dl t), List.length_cons]
    omega

/-- C4: over any list of N tracks, the batch loop's final counters
partition the tracks: downloaded + skipped + failed always sum to
exactly N (each track increments exactly one of the three). -/
theorem c4_summary_counts_partition (dl : Track → DownloadOutcome)
    (tagResult : Track → String → Bool) (add_metadata : Bool) (tracks : List Track) :
    (download_playlist_multisource dl tagResult add_metadata tracks).1.downloaded
    + (download_playlist_multisource dl tagResult add_metadata tracks).1.skipped
    + (download_playlist_multisource dl tagResult add_metadata tracks).1.failed.length
    = tracks.length := by
  simp only [download_playlist_multisource]
  rw [foldl_stepTrack_fst]
  simpa using foldl_batchStateStep_counts dl tracks ⟨0, 0, []⟩

/-- C6: the candidate list is a deterministic function of the track
record; when the direct-URL hint is present (a YouTube-sourced track
with a truthy URL) it is the first candidate, before any search; the
search phrasings follow in the fixed most-to-least-specific ladder; the
last candidate targets SoundCloud (a platform distinct from YouTube);
and the length is 6 with a hint and 5 without, in particular at most 6. -/
theorem c6_source_resolver_policy (t : Track) :
    (buildSources t).length = (if t.source = "youtube" ∧ t.youtube_url ≠ "" then 6 else 5)
    ∧ (buildSources t).length ≤ 6
    ∧ (buildSources t).head? = some (if t.source = "youtube" ∧ t.youtube_url ≠ "" then
          ⟨"YouTube (Direct)", t.youtube_url, []⟩
        else ⟨"YouTube Music (Official Audio)",
          "ytsearch1:" ++ t.artists ++ " - " ++ t.name ++ " official audio", []⟩)
    ∧ (buildSources t).getLast? = some ⟨"Soundcloud",
        "scsearch1:" ++ t.artists ++ " " ++ t.name,
        ["--extractor-args", "soundcloud:client_id="]⟩
    ∧ (buildSources t).drop (if t.source = "youtube" ∧ t.youtube_url ≠ "" then 1 else 0)
        = searchSources t.artists t.name := by
  by_cases h : t.source = "youtube" ∧ t.youtube_url ≠ ""
  · simp [buildSources, searchSources, h]
  · simp [buildSources, searchSources, h]

/-- C8: a tagging failure never changes a track's outcome: the final
counters and failure list of the batch are identical under any two tagging
oracles (in particular a successfully downloaded track still counts as
downloaded when its tagging fails, and the batch continues); a
successful non-cache outcome always increments the downloaded counter,
with no reference to the tagging result; and the tagging adapter
returns false (rather than raising) when the underlying library
operations fail on either supported container. -/
theorem c8_tagging_failure_nonfatal (dl : Track → DownloadOutcome)
    (tag tag' : Track → String → Bool) (add_metadata : Bool) (tracks : List Track) :
    (download_playlist_multisource dl tag add_metadata tracks).1
      = (download_playlist_multisource dl tag' add_metadata tracks).1
    ∧ (∀ (st : BatchState) (t : Track),
        batchStateStep st t ⟨true, some "p", "YouTube (Direct)"⟩
          = { st with downloaded := st.downloaded + 1 })
    ∧ add_metadata_to_file "song.m4a" false = false
    ∧ add_metadata_to_file "song.mp3" false = false := by
  refine ⟨?_, ?_, by decide, by decide⟩
  · simp only [download_playlist_multisource]
    rw [foldl_stepTrack_fst, foldl_stepTrack_fst]
  · intro st t
    have : pathTruthy (some "p") = true := by decide
    simp [batchStateStep, this]

lemma dedupeByStem_stems_nodup_and_fresh :
    ∀ (l : List DlFile) (seen : List String),
      ((dedupeByStem l seen).map DlFile.stem).Nodup
      ∧ ∀ f ∈ dedupeByStem l seen, f.stem ∉ seen := by
  intro l
  induction l with
  | nil =>
    intro seen
    exact ⟨List.nodup_nil, by intro f hf; cases hf⟩
  | cons g rest ih =>
    intro seen
    by_cases hg : g.stem ∈ seen
    · simpa [dedupeByStem, hg] using ih seen
    · have ih' := ih (g.stem :: seen)
      constructor
      · rw [show dedupeByStem (g :: rest) seen = g :: dedupeByStem rest (g.stem :: seen) by
          simp [dedupeByStem, hg]]
        rw [List.map_cons, List.nodup_cons]
        constructor
        · intro hmem
          obtain ⟨f, hf, hfs⟩ := List.mem_map.mp hmem
          exact (ih'.2 f hf) (by rw [hfs]; exact List.mem_cons_self _ _)
        · exact ih'.1
      · intro f hf
        rw [show dedupeByStem (g :: rest) seen = g :: dedupeByStem rest (g.stem :: seen) by
          simp [dedupeByStem, hg]] at hf
        rcases List.mem_cons.mp hf with hf | hf
        · rw [hf]; exact hg
        · intro hs
          exact (ih'.2 f hf) (List.mem_cons_of_mem _ hs)

lemma dedupeByStem_sublist :
    ∀ (l : List DlFile) (seen : List String), List.Sublist (dedupeByStem l seen) l := by
  intro l
  induction l with
  | nil => intro seen; exact List.Sublist.refl []
  | cons g rest ih =>
    intro seen
    by_cases hg : g.stem ∈ seen
    · rw [show dedupeByStem (g :: rest) seen = dedupeByStem rest seen by simp [dedupeByStem, hg]]
      exact List.Sublist.cons g (ih seen)
    · rw [show dedupeByStem (g :: rest) seen = g :: dedupeByStem rest (g.stem :: seen) by
        simp [dedupeByStem, hg]]
      exact List.Sublist.cons₂ g (ih (g.stem :: seen))

lemma dedupeByStem_find_first :
    ∀ (l : List DlFile) (seen : List String) (s : String), s ∉ seen →
      (dedupeByStem l seen).find? (fun f => f.stem == s) = l.find? (fun f => f.stem == s) := by
  intro l
  induction l with
  | nil => intro seen s _; rfl
  | cons g rest ih =>
    intro seen s hs
    by_cases hg : g.stem ∈ seen
    · have hne : (g.stem == s) = false := by
        rw [beq_eq_false_iff_ne]
        intro h
        rw [h] at hg
        exact hs hg
      rw [show dedupeByStem (g :: rest) seen = dedupeByStem rest seen by simp [dedupeByStem, hg]]
      rw [List.find?_cons_of_neg _ (by simp [hne])]
      exact ih seen s hs
    · rw [show dedupeByStem (g :: rest) seen = g :: dedupeByStem rest (g.stem :: seen) by
        simp [dedupeByStem, hg]]
      by_cases heq : g.stem = s
      · rw [List.find?_cons_of_pos _ (by simp [heq]), List.find?_cons_of_pos _ (by simp [heq])]
      · have hne : (g.stem == s) = false := beq_eq_false_iff_ne.mpr heq
        rw [List.find?_cons_of_neg _ (by simp [hne]), List.find?_cons_of_neg _ (by simp [hne])]
        refine ih (g.stem :: seen) s ?_
        intro hmem
        rcases List.mem_cons.mp hmem with h | h
        · exact heq h.symm
        · exact hs h

/-- C9: the packaging step's dedup keeps, for every base filename, only
the first physical file with that stem — the resulting list has
pairwise-distinct stems (so the archive never gets two entries with the
same base filename), is an in-order selection of the input files, and
the survivor for any stem is exactly the first input file with that
stem (the second colliding file is dropped, not overwritten). -/
theorem c9_dedupe_by_base_filename (files : List DlFile) :
    ((unique_files files).map DlFile.stem).Nodup
    ∧ List.Sublist (unique_files files) files
    ∧ (∀ s : String, (unique_files files).find? (fun f => f.stem == s)
        = files.find? (fun f => f.stem == s))
    ∧ zipEntryNames files = (unique_files files).map dlName := by
  refine ⟨(dedupeByStem_stems_nodup_and_fresh files []).1, dedupeByStem_sublist files [], ?_, rfl⟩
  intro s
  exact dedupeByStem_find_first files [] s (by simp)

lemma tryTrackMethods_fail_step (url : String) (att : Nat → MetaAttempt) (i : Nat)
    (rest : List Nat) (h : metaAttemptSucceeds (att i) = false) :
    tryTrackMethods url att (i :: rest) = tryTrackMethods url att rest := by
  unfold metaAttemptSucceeds at h
  cases ha : att i with
  | timeout => simp [tryTrackMethods, ha]
  | exn => simp [tryTrackMethods, ha]
  | exit c ne parsed =>
    rw [ha] at h
    cases parsed with
    | some v =>
      have hc : ((c == 0) && ne) = false := by simpa using h
      simp [tryTrackMethods, ha, hc]
    | none =>
      by_cases hc : ((c == 0) && ne) = true
      · simp [tryTrackMethods, ha, hc]
      · have hc' : ((c == 0) && ne) = false := by
          cases hcc : ((c == 0) && ne)
          · rfl
          · exact absurd hcc hc
        simp [tryTrackMethods, ha, hc']

lemma tryPlaylistMethods_fail_step (att : Nat → PlaylistAttempt) (i : Nat)
    (rest : List Nat) (h : playlistAttemptSucceeds (att i) = false) :
    tryPlaylistMethods att (i :: rest) = tryPlaylistMethods att rest := by
  unfold playlistAttemptSucceeds at h
  cases ha : att i with
  | timeout => simp [tryPlaylistMethods, ha]
  | exn => simp [tryPlaylistMethods, ha]
  | exit c parsed_tracks =>
    rw [ha] at h
    have h' : ((c == 0) && !parsed_tracks.isEmpty) = false := h
    simp [tryPlaylistMethods, ha, h']

lemma fallbackTrack_name_ne_empty (url : String) : (fallbackTrack url).name ≠ "" := by
  unfold fallbackTrack
  cases extract_video_id url with
  | none =>
    show ("YouTube Video" : String) ≠ ""
    decide
  | some vid =>
    dsimp only
    by_cases hve : vid.isEmpty = true
    · rw [if_pos hve]
      show ("YouTube Video" : String) ≠ ""
      decide
    · rw [if_neg hve]
      show "YouTube Video " ++ vid ≠ ""
      intro hcon
      have hlen := congrArg String.length hcon
      rw [String.length_append] at hlen
      have h14 : ("YouTube Video " : String).length = 14 := rfl
      have h0 : ("" : String).length = 0 := rfl
      rw [h14, h0] at hlen
      omega

lemma fallbackTrack_artists_eq (url : String) : (fallbackTrack url).artists = "YouTube" := by
  unfold fallbackTrack
  cases extract_video_id url with
  | none => rfl
  | some vid =>
    dsimp only
    by_cases hve : vid.isEmpty = true
    · rw [if_pos hve]
    · rw [if_neg hve]

/-- C10: the single-track YouTube metadata fetch is total over its
per-method failures: it always returns a record (never `None`), and
when all three methods fail it returns the synthesized fallback record,
whose name placeholder (derived from the extracted video id) and
artists placeholder "YouTube" are non-empty; the playlist metadata
fetch, by contrast, returns `None` when both of its methods fail. -/
theorem c10_track_fetch_total_playlist_not (url purl : String)
    (att : Nat → MetaAttempt) (patt : Nat → PlaylistAttempt)
    (hatt : ∀ i, i < 3 → metaAttemptSucceeds (att i) = false)
    (hpatt : ∀ i, i < 2 → playlistAttemptSucceeds (patt i) = false) :
    fetch_youtube_track url att = some (fallbackTrack url)
    ∧ (fallbackTrack url).name ≠ ""
    ∧ (fallbackTrack url).artists = "YouTube"
    ∧ (∀ att' : Nat → MetaAttempt, (fetch_youtube_track url att').isSome = true)
    ∧ fetch_youtube_playlist purl patt = none := by
  have hnone : tryTrackMethods url att [0, 1, 2] = none := by
    rw [tryTrackMethods_fail_step url att 0 _ (hatt 0 (by omega)),
        tryTrackMethods_fail_step url att 1 _ (hatt 1 (by omega)),
        tryTrackMethods_fail_step url att 2 _ (hatt 2 (by omega))]
    rfl
  refine ⟨?_, fallbackTrack_name_ne_empty url, fallbackTrack_artists_eq url, ?_, ?_⟩
  · simp [fetch_youtube_track, hnone]
  · intro att'
    cases htm : tryTrackMethods url att' [0, 1, 2] with
    | none => simp [fetch_youtube_track, htm]
    | some t => simp [fetch_youtube_track, htm]
  · have hpl : tryPlaylistMethods patt [0, 1] = none := by
      rw [tryPlaylistMethods_fail_step patt 0 _ (hpatt 0 (by omega)),
          tryPlaylistMethods_fail_step patt 1 _ (hpatt 1 (by omega))]
      rfl
    simpa [fetch_youtube_playlist] using hpl

/-- C10 witness: with every method attempt timing out, the track fetch
still returns the synthesized record while the playlist fetch returns
`None`. -/
theorem c10_track_fetch_total_playlist_not_witness :
    fetch_youtube_track "https://www.youtube.com/watch?v=abc" (fun _ => MetaAttempt.timeout)
      = some (fallbackTrack "https://www.youtube.com/watch?v=abc")
    ∧ fetch_youtube_playlist "https://www.youtube.com/playlist?list=L"
        (fun _ => PlaylistAttempt.timeout) = none := by
  have h := c10_track_fetch_total_playlist_not
      "https://www.youtube.com/watch?v=abc" "https://www.youtube.com/playlist?list=L"
      (fun _ => MetaAttempt.timeout) (fun _ => PlaylistAttempt.timeout)
      (fun i _ => rfl) (fun i _ => rfl)
  exact ⟨h.1, h.2.2.2.2⟩

end PlaylistPilot
